import Mathlib

/-!
Verification development for the human-in-the-loop conversational workflow
(source: src/graph.py).  The node functions (`human_help`, `chatbot`,
`human_node`), the graph wiring of `get_app`, and the display classifier of
`run_chat` are shallowly embedded from the source.  The execution engine
itself (graph stepping, checkpointing, interrupt/resume plumbing) lives in
the LangGraph library, outside src/; those parts are modelled from the spec,
each such definition marked `Modelled from the spec:` in its doc comment.
JSON payloads are modelled as already-parsed values: the source serializes
with json.dumps and immediately reparses with json.loads, an identity round
trip for the flat objects used here.
-/

namespace HLM

/-- A primitive JSON value: the markers exchanged here only carry strings,
booleans and (for modelling absent keys) null. -/
inductive JVal where
  | null : JVal
  | bool : Bool → JVal
  | str : String → JVal
deriving DecidableEq, Repr

/-- A parsed JSON document: a primitive or a flat object. -/
inductive Json where
  | prim : JVal → Json
  | obj : List (String × JVal) → Json
deriving DecidableEq, Repr

/-- Association lookup on the fields of a flat JSON object, first match wins
(Python dict literals here never repeat keys, so this is exact). -/
def alookup : List (String × JVal) → String → Option JVal
  | [], _ => none
  | (k, v) :: rest, key => if k = key then some v else alookup rest key

/-- Python truthiness of a primitive JSON value, as used by the source in
`if json.loads(last.content).get("need_human"):` — None and empty strings
are falsy, booleans are themselves, nonempty strings are truthy. -/
def JVal.truthy : JVal → Bool
  | .null => false
  | .bool b => b
  | .str s => !s.isEmpty

/-- Python `dict.get(key)` with default None on a parsed flat object. -/
def Json.getd : Json → String → JVal
  | .obj fields, key => (alookup fields key).getD .null
  | .prim _, _ => .null

/-- A conversation message, role-tagged as in the langchain message types the
source manipulates: HumanMessage (with its optional name attribute),
AIMessage (content plus the queries of its human_help tool calls — the only
tool bound — so a tool call is represented by its query argument),
ToolMessage (content, stored parsed), and the system instruction. -/
inductive Message where
  | human : String → Option String → Message
  | ai : String → List String → Message
  | tool : Json → Message
  | system : String → Message
deriving DecidableEq, Repr

/-- The reply of the external language model collaborator: text content and
the list of requested human_help tool calls (query arguments). -/
structure AIReply where
  content : String
  toolCalls : List String
deriving DecidableEq, Repr

/-- The tool from src/graph.py lines 17-20: `human_help(query)` returns
`json.dumps({"need_human": True, "query": query})`; modelled as the parsed
value of that dump. -/
def human_help (query : String) : Json :=
  Json.obj [("need_human", JVal.bool true), ("query", JVal.str query)]

/-- The system instruction the source prepends to every model call
(src/graph.py line 30). -/
def sysInstruction : Message :=
  Message.system "If user needs help, call human_help tool."

/-- The `chatbot` node (src/graph.py lines 27-31): invoke the collaborator on
the system instruction followed by the current history, and contribute its
reply as the single appended message. -/
def chatbot (llm : List Message → AIReply) (msgs : List Message) : List Message :=
  [Message.ai (llm (sysInstruction :: msgs)).content (llm (sysInstruction :: msgs)).toolCalls]

/-- What one node execution contributes: a message delta to append, and an
interrupt payload when the node suspends instead of completing. -/
structure NodeResult where
  delta : List Message
  interrupt : Option Json
deriving DecidableEq, Repr

/-- The `human_node` (src/graph.py lines 34-44).  `resume` is the
continuation value: none on a fresh run (so `interrupt(...)` suspends), some
answer when the engine re-executes the node with an admin answer (so
`interrupt(...)` returns that answer).  Returns none where the Python raises:
`.get` on a non-object content, or the `["query"]` lookup on a missing key. -/
def human_node (resume : Option String) (msgs : List Message) : Option NodeResult :=
  match msgs.getLast? with
  | some (.tool content) =>
    match content with
    | .prim _ => none
    | .obj fields =>
      if ((alookup fields "need_human").getD .null).truthy then
        match alookup fields "query" with
        | none => none
        | some q =>
          match resume with
          | none => some ⟨[], some (Json.obj [("query", q)])⟩
          | some sol =>
              some ⟨[Message.human ("SYSTEM: Admin resolved this: " ++ sol) none], none⟩
      else some ⟨[], none⟩
  | _ => some ⟨[], none⟩

/-- Modelled from the spec: the LangGraph prebuilt `tools_condition`
(src/graph.py line 55 routes through it) is library code not under src/;
per the spec the decide→tool edge is taken iff the response of the
collaborator requests a tool call, i.e. the last message is an AI reply
with a nonempty tool-call list. -/
def tools_condition (msgs : List Message) : Bool :=
  match msgs.getLast? with
  | some (.ai _ tcs) => !tcs.isEmpty
  | _ => false

/-- Modelled from the spec: the LangGraph prebuilt `ToolNode(tools)`
(src/graph.py line 51) is library code not under src/; with
`tools = [human_help]` it appends, for each tool call of the last AI
message, a ToolMessage holding the result of `human_help` on that query. -/
def toolNode (msgs : List Message) : List Message :=
  match msgs.getLast? with
  | some (.ai _ tcs) => tcs.map (fun q => Message.tool (human_help q))
  | _ => []

/-- The nodes of the workflow graph, with the implicit start and finish
markers (src/graph.py lines 48-58: nodes "bot", "tools", "human"). -/
inductive GNode where
  | start : GNode
  | bot : GNode
  | tools : GNode
  | human : GNode
  | done : GNode
deriving DecidableEq, Repr

/-- The named nodes registered by `get_app` (src/graph.py lines 50-52). -/
def graphNodes : List GNode := [GNode.bot, GNode.tools, GNode.human]

/-- The transition structure of `get_app` (src/graph.py lines 54-57): fixed
configuration, a function of the graph definition alone plus the routing
condition on the current history. -/
def successor (msgs : List Message) : GNode → Option GNode
  | .start => some .bot
  | .bot => some (if tools_condition msgs then .tools else .done)
  | .tools => some .human
  | .human => some .bot
  | .done => none

/-- The full snapshot of a thread: its message history and, when suspended,
the pending interrupt payload (spec §3 ExecutionState / PendingInterrupt;
at most one pending interrupt per thread, hence an Option). -/
structure ExecutionState where
  messages : List Message
  pending : Option Json
deriving DecidableEq, Repr

/-- Modelled from the spec: the execution engine loop (the LangGraph
stepping machinery is library code not under src/).  Runs nodes from `node` on
history `msgs`, consuming `fuel` (one unit per node) so the recursion is
structural; `resume` is delivered to the first execution of the human node
and is none afterwards.  Returns none on fuel exhaustion or a node runtime
error; otherwise the final state, whose `pending` is some payload exactly
when the run suspended at the human node (reaching the finish marker yields
`pending = none`). -/
def runFrom (llm : List Message → AIReply) :
    Nat → GNode → Option String → List Message → Option ExecutionState
  | 0, _, _, _ => none
  | fuel + 1, .start, resume, msgs => runFrom llm fuel .bot resume msgs
  | fuel + 1, .bot, _, msgs =>
    let msgs2 := msgs ++ chatbot llm msgs
    if tools_condition msgs2 then runFrom llm fuel .tools none msgs2
    else some ⟨msgs2, none⟩
  | fuel + 1, .tools, _, msgs => runFrom llm fuel .human none (msgs ++ toolNode msgs)
  | fuel + 1, .human, resume, msgs =>
    match human_node resume msgs with
    | none => none
    | some r =>
      match r.interrupt with
      | some payload => some ⟨msgs, some payload⟩
      | none => runFrom llm fuel .bot none (msgs ++ r.delta)
  | _ + 1, .done, _, msgs => some ⟨msgs, none⟩

/-- Modelled from the spec: one `invoke` call on a thread state — append the
user message (the source sends `("user", txt)`, a HumanMessage with no name
attribute) and run the graph from its start edge into the bot node. -/
def invokeState (llm : List Message → AIReply) (fuel : Nat)
    (st : ExecutionState) (txt : String) : Option ExecutionState :=
  runFrom llm fuel .bot none (st.messages ++ [Message.human txt none])

/-- A sequence of `invoke` calls on the same thread, in call order; stops at
the first failing call. -/
def invokeMany (llm : List Message → AIReply) (fuel : Nat) :
    ExecutionState → List String → Option ExecutionState
  | st, [] => some st
  | st, txt :: rest =>
    match invokeState llm fuel st txt with
    | none => none
    | some st2 => invokeMany llm fuel st2 rest

/-- The history a no-escalation run must produce: starting from `acc`, each
user input followed immediately by the collaborator reply to the history so
far, in call order, nothing else. -/
def expectedFrom (llm : List Message → AIReply) :
    List Message → List String → List Message
  | acc, [] => acc
  | acc, txt :: rest =>
    let m := acc ++ [Message.human txt none]
    expectedFrom llm (m ++ [Message.ai (llm (sysInstruction :: m)).content
      (llm (sysInstruction :: m)).toolCalls]) rest

/-- The durable per-thread store of the checkpointer, keyed by thread id
(spec §4.4). -/
def Store : Type := List (String × ExecutionState)

/-- Lookup of the latest persisted state of a thread. -/
def lookupThread : Store → String → Option ExecutionState
  | [], _ => none
  | (tid, st) :: rest, key => if tid = key then some st else lookupThread rest key

/-- Replace (or create) the persisted state of a thread. -/
def saveThread : Store → String → ExecutionState → Store
  | [], key, st => [(key, st)]
  | (tid, old) :: rest, key, st =>
    if tid = key then (key, st) :: rest else (tid, old) :: saveThread rest key st

/-- The error kinds of the engine operations (spec §7).  EngineFailure
stands for a node runtime error or fuel exhaustion; CollaboratorUnavailable
is not modelled since the collaborator is a total function here. -/
inductive EngineError where
  | NoPendingInterrupt : EngineError
  | ThreadNotFound : EngineError
  | EngineFailure : EngineError
deriving DecidableEq, Repr

/-- Modelled from the spec: `resume(threadId, externalInput)` (spec §4.2) —
requires a PendingInterrupt, else fails with NoPendingInterrupt (or
ThreadNotFound for a never-seen thread); on success it re-enters the human
node with the answer as continuation value and persists the outcome.  The
returned store is the input store whenever the call fails. -/
def resume (llm : List Message → AIReply) (fuel : Nat) (store : Store)
    (tid answer : String) : Store × Except EngineError ExecutionState :=
  match lookupThread store tid with
  | none => (store, Except.error EngineError.ThreadNotFound)
  | some st =>
    match st.pending with
    | none => (store, Except.error EngineError.NoPendingInterrupt)
    | some _ =>
      match runFrom llm fuel .human (some answer) st.messages with
      | none => (store, Except.error EngineError.EngineFailure)
      | some st2 => (saveThread store tid st2, Except.ok st2)

/-- Modelled from the spec: `getState(threadId)` (spec §4.2) — read-only
snapshot, ThreadNotFound on a never-seen id. -/
def getState (store : Store) (tid : String) : Except EngineError ExecutionState :=
  match lookupThread store tid with
  | none => Except.error EngineError.ThreadNotFound
  | some st => Except.ok st

/-- How many pending interrupts a thread state holds. -/
def pendingCount (st : ExecutionState) : Nat :=
  match st.pending with
  | none => 0
  | some _ => 1

/-- How `run_chat` displays a freshly appended message
(src/graph.py lines 79-84). -/
inductive DisplayClass where
  | systemNote : DisplayClass
  | aiReply : DisplayClass
  | hidden : DisplayClass
deriving DecidableEq, Repr

/-- The display classifier of `run_chat` (src/graph.py lines 79-84): a
HumanMessage whose name attribute differs from "user" prints as a SYSTEM
note; otherwise an AI message with nonempty content prints as an AI reply;
everything else is not printed. -/
def displayClassOf : Message → DisplayClass
  | .human _ name => if name ≠ some "user" then .systemNote else .hidden
  | .ai c _ => if !c.isEmpty then .aiReply else .hidden
  | _ => .hidden

/-- Whether the display treats a message as an admin/system note: the
condition of src/graph.py line 80, a HumanMessage whose name attribute
differs from "user". -/
def isSystemNote : Message → Bool
  | .human _ name => decide (name ≠ some "user")
  | _ => false

/-! Helper lemmas about the node functions and the engine loop. -/

/-- On a fresh run (no continuation value) the human node never contributes
messages: both its suspension branch and its fall-through branch have an
empty delta. -/
theorem human_node_none_cases (msgs : List Message) :
    human_node none msgs = none
      ∨ ∃ i, human_node none msgs = some ⟨[], i⟩ := by
  unfold human_node
  rcases hl : msgs.getLast? with _ | m
  · exact Or.inr ⟨none, rfl⟩
  · cases m with
    | tool content =>
      cases content with
      | prim v => exact Or.inl rfl
      | obj fields =>
        by_cases ht : ((alookup fields "need_human").getD JVal.null).truthy = true
        · rcases hq : alookup fields "query" with _ | q
          · exact Or.inl (by simp [ht, hq])
          · exact Or.inr ⟨some (Json.obj [("query", q)]), by simp [ht, hq]⟩
        · exact Or.inr ⟨none, by simp [ht]⟩
    | human c n => exact Or.inr ⟨none, rfl⟩
    | ai c tcs => exact Or.inr ⟨none, rfl⟩
    | system c => exact Or.inr ⟨none, rfl⟩

theorem human_node_none_delta (msgs : List Message) (r : NodeResult)
    (h : human_node none msgs = some r) : r.delta = [] := by
  rcases human_node_none_cases msgs with hc | ⟨i, hc⟩
  · rw [hc] at h
    exact absurd h (by simp)
  · rw [hc] at h
    injection h with h2
    rw [← h2]

/-- When the human node re-executes with a continuation value on an
escalation state, it contributes exactly the resolution message and does not
suspend again. -/
theorem human_node_resume_eq (ans : String) (msgs : List Message)
    (fields : List (String × JVal)) (q : JVal)
    (hlast : msgs.getLast? = some (Message.tool (Json.obj fields)))
    (hneed : ((alookup fields "need_human").getD JVal.null).truthy = true)
    (hq : alookup fields "query" = some q) :
    human_node (some ans) msgs
      = some ⟨[Message.human ("SYSTEM: Admin resolved this: " ++ ans) none], none⟩ := by
  unfold human_node
  rw [hlast]
  simp [hneed, hq]

/-- With a continuation value the human node never suspends, whatever the
state: the interrupt of its result is always cleared. -/
theorem human_node_some_no_interrupt (ans : String) (msgs : List Message)
    (r : NodeResult) (h : human_node (some ans) msgs = some r) :
    r.interrupt = none := by
  have hcases : human_node (some ans) msgs = none
      ∨ ∃ d, human_node (some ans) msgs = some ⟨d, none⟩ := by
    unfold human_node
    rcases hl : msgs.getLast? with _ | m
    · exact Or.inr ⟨[], rfl⟩
    · cases m with
      | tool content =>
        cases content with
        | prim v => exact Or.inl rfl
        | obj fields =>
          by_cases ht : ((alookup fields "need_human").getD JVal.null).truthy = true
          · rcases hq : alookup fields "query" with _ | q
            · exact Or.inl (by simp [ht, hq])
            · exact Or.inr ⟨[Message.human ("SYSTEM: Admin resolved this: " ++ ans) none],
                by simp [ht, hq]⟩
          · exact Or.inr ⟨[], by simp [ht]⟩
      | human c n => exact Or.inr ⟨[], rfl⟩
      | ai c tcs => exact Or.inr ⟨[], rfl⟩
      | system c => exact Or.inr ⟨[], rfl⟩
  rcases hcases with hc | ⟨d, hc⟩
  · rw [hc] at h
    exact absurd h (by simp)
  · rw [hc] at h
    injection h with h2
    rw [← h2]

/-- On an escalation state with no continuation value the human node
suspends, with the one-field object holding the query as payload. -/
theorem human_node_suspends (msgs : List Message)
    (fields : List (String × JVal)) (q : JVal)
    (hlast : msgs.getLast? = some (Message.tool (Json.obj fields)))
    (hneed : ((alookup fields "need_human").getD JVal.null).truthy = true)
    (hq : alookup fields "query" = some q) :
    human_node none msgs = some ⟨[], some (Json.obj [("query", q)])⟩ := by
  unfold human_node
  rw [hlast]
  simp [hneed, hq]

/-- A run with no continuation value only ever appends AI replies and tool
results: the new messages extend the history and none of them is displayed
as a system note. -/
theorem runFrom_extends (llm : List Message → AIReply) :
    ∀ (fuel : Nat) (node : GNode) (msgs : List Message) (st2 : ExecutionState),
      runFrom llm fuel node none msgs = some st2 →
      ∃ rest, st2.messages = msgs ++ rest ∧ ∀ m ∈ rest, isSystemNote m = false := by
  intro fuel
  induction fuel with
  | zero => intro node msgs st2 h; exact absurd h (by simp [runFrom])
  | succ f ih =>
    intro node msgs st2 h
    cases node with
    | start => exact ih .bot msgs st2 h
    | bot =>
      rw [runFrom] at h
      split at h
      · obtain ⟨rest, hr, hn⟩ := ih .tools (msgs ++ chatbot llm msgs) st2 h
        refine ⟨chatbot llm msgs ++ rest, by rw [hr, List.append_assoc], ?_⟩
        intro m hm
        rcases List.mem_append.mp hm with hm1 | hm2
        · simp only [chatbot, List.mem_singleton] at hm1
          rw [hm1]; rfl
        · exact hn m hm2
      · cases h
        refine ⟨chatbot llm msgs, rfl, ?_⟩
        intro m hm
        simp only [chatbot, List.mem_singleton] at hm
        rw [hm]; rfl
    | tools =>
      rw [runFrom] at h
      obtain ⟨rest, hr, hn⟩ := ih .human (msgs ++ toolNode msgs) st2 h
      refine ⟨toolNode msgs ++ rest, by rw [hr, List.append_assoc], ?_⟩
      intro m hm
      rcases List.mem_append.mp hm with hm1 | hm2
      · unfold toolNode at hm1
        split at hm1
        · obtain ⟨a, _, ha⟩ := List.mem_map.mp hm1
          rw [← ha]; rfl
        · exact absurd hm1 (by simp)
      · exact hn m hm2
    | human =>
      rw [runFrom] at h
      split at h
      next heq => exact absurd h (by simp)
      next r heq =>
        split at h
        next payload hi =>
          cases h
          exact ⟨[], (List.append_nil msgs).symm, by intro m hm; exact absurd hm (by simp)⟩
        next hi =>
          have hd := human_node_none_delta msgs r heq
          rw [hd, List.append_nil] at h
          exact ih .bot msgs st2 h
    | done =>
      rw [runFrom] at h
      cases h
      exact ⟨[], (List.append_nil msgs).symm, by intro m hm; exact absurd hm (by simp)⟩

/-- One bot step of a collaborator that never requests tool calls: the run
ends at the finish marker after appending exactly the collaborator reply,
with no pending interrupt. -/
theorem runFrom_bot_notools (llm : List Message → AIReply)
    (hllm : ∀ hist, (llm hist).toolCalls = []) (fuel : Nat) (msgs : List Message) :
    runFrom llm (fuel + 1) .bot none msgs
      = some ⟨msgs ++ [Message.ai (llm (sysInstruction :: msgs)).content
          (llm (sysInstruction :: msgs)).toolCalls], none⟩ := by
  have hc : tools_condition (msgs ++ chatbot llm msgs) = false := by
    unfold tools_condition chatbot
    rw [List.getLast?_concat]
    simp [hllm]
  have hstep : runFrom llm (fuel + 1) .bot none msgs
      = if tools_condition (msgs ++ chatbot llm msgs)
          then runFrom llm fuel .tools none (msgs ++ chatbot llm msgs)
          else some ⟨msgs ++ chatbot llm msgs, none⟩ := rfl
  rw [hstep, if_neg (by rw [hc]; exact Bool.false_ne_true)]
  rfl

/-- Saving a thread state makes it the state that lookup returns. -/
theorem saveThread_lookup : ∀ (store : Store) (tid : String) (st : ExecutionState),
    lookupThread (saveThread store tid st) tid = some st := by
  intro store
  induction store with
  | nil => intro tid st; simp [saveThread, lookupThread]
  | cons kv rest ih =>
    intro tid st
    rcases kv with ⟨k, old⟩
    unfold saveThread
    by_cases hk : k = tid
    · rw [if_pos hk]
      simp [lookupThread]
    · rw [if_neg hk]
      unfold lookupThread
      rw [if_neg hk]
      exact ih tid st

/-- Shape of a successful resume on a genuinely suspended thread: the new
history is the old one, then the resolution message, then only messages that
are not system notes; and if the collaborator never requests tool calls the
resumed thread ends with no pending interrupt. -/
theorem resume_ok_shape (llm : List Message → AIReply) (fuel : Nat) (store : Store)
    (tid ans : String) (st st2 : ExecutionState) (store2 : Store)
    (fields : List (String × JVal)) (q : JVal)
    (hlook : lookupThread store tid = some st)
    (hlast : st.messages.getLast? = some (Message.tool (Json.obj fields)))
    (hneed : ((alookup fields "need_human").getD JVal.null).truthy = true)
    (hq : alookup fields "query" = some q)
    (hres : resume llm fuel store tid ans = (store2, Except.ok st2)) :
    (∃ rest, st2.messages
        = st.messages ++ Message.human ("SYSTEM: Admin resolved this: " ++ ans) none :: rest
      ∧ (∀ m ∈ rest, isSystemNote m = false))
    ∧ ((∀ hist, (llm hist).toolCalls = []) → st2.pending = none)
    ∧ store2 = saveThread store tid st2 := by
  unfold resume at hres
  split at hres
  next heq => exact absurd (congrArg Prod.snd hres) (by simp)
  next st3 heq =>
    rw [hlook] at heq
    injection heq with heq2
    subst heq2
    split at hres
    next hp => exact absurd (congrArg Prod.snd hres) (by simp)
    next payload hp =>
      split at hres
      next hrun => exact absurd (congrArg Prod.snd hres) (by simp)
      next st4 hrun =>
        have hstore := congrArg Prod.fst hres
        have hst := congrArg Prod.snd hres
        simp only [Except.ok.injEq] at hst
        subst hst
        cases fuel with
        | zero => exact absurd hrun (by simp [runFrom])
        | succ f =>
          rw [runFrom] at hrun
          rw [human_node_resume_eq ans st.messages fields q hlast hneed hq] at hrun
          simp only at hrun
          refine ⟨?_, ?_, ?_⟩
          · obtain ⟨rest, hr, hn⟩ := runFrom_extends llm f .bot _ _ hrun
            exact ⟨rest, by rw [hr, List.append_assoc]; rfl, hn⟩
          · intro hllm
            cases f with
            | zero => exact absurd hrun (by simp [runFrom])
            | succ f2 =>
              rw [runFrom_bot_notools llm hllm f2] at hrun
              cases hrun
              rfl
          · exact hstore.symm

/-- With a collaborator that never requests tool calls, a sequence of invoke
calls produces exactly the expected concatenated history, with no pending
interrupt at any point. -/
theorem invokeMany_notools (llm : List Message → AIReply)
    (hllm : ∀ hist, (llm hist).toolCalls = []) (fuel : Nat) :
    ∀ (inputs : List String) (acc : List Message),
      invokeMany llm (fuel + 1) ⟨acc, none⟩ inputs
        = some ⟨expectedFrom llm acc inputs, none⟩ := by
  intro inputs
  induction inputs with
  | nil => intro acc; rfl
  | cons txt rest ih =>
    intro acc
    have h1 : invokeState llm (fuel + 1) ⟨acc, none⟩ txt
        = some ⟨(acc ++ [Message.human txt none])
            ++ [Message.ai (llm (sysInstruction :: (acc ++ [Message.human txt none]))).content
                 (llm (sysInstruction :: (acc ++ [Message.human txt none]))).toolCalls],
            none⟩ := by
      unfold invokeState
      exact runFrom_bot_notools llm hllm fuel (acc ++ [Message.human txt none])
    rw [invokeMany, h1]
    exact ih ((acc ++ [Message.human txt none])
      ++ [Message.ai (llm (sysInstruction :: (acc ++ [Message.human txt none]))).content
           (llm (sysInstruction :: (acc ++ [Message.human txt none]))).toolCalls])

/-! Concrete instances used by the witnesses of the claim theorems. -/

/-- A collaborator that always replies "ok" with no tool calls. -/
def wLLM : List Message → AIReply := fun _ => ⟨"ok", []⟩

/-- The fields of the escalation marker of the refund scenario. -/
def wFields : List (String × JVal) :=
  [("need_human", JVal.bool true), ("query", JVal.str "refund request order 42")]

/-- A thread suspended at the human node of the refund scenario. -/
def wSuspended : ExecutionState :=
  ⟨[Message.human "I need a refund for order 42." none,
    Message.ai "let me ask" ["refund request order 42"],
    Message.tool (Json.obj wFields)],
   some (Json.obj [("query", JVal.str "refund request order 42")])⟩

/-- The store holding only the suspended refund thread. -/
def wStore : Store := [("t1", wSuspended)]

/-- The refund thread after a successful resume with answer
"Refund approved." under the collaborator wLLM. -/
def wResolved : ExecutionState :=
  ⟨[Message.human "I need a refund for order 42." none,
    Message.ai "let me ask" ["refund request order 42"],
    Message.tool (Json.obj wFields),
    Message.human "SYSTEM: Admin resolved this: Refund approved." none,
    Message.ai "ok" []], none⟩

/-- A thread with no pending interrupt. -/
def wIdle : ExecutionState :=
  ⟨[Message.human "hi" none, Message.ai "hello" []], none⟩

/-- The store holding only the idle thread. -/
def wIdleStore : Store := [("t2", wIdle)]

/-! The claim theorems. -/

/-- Claim C1, amended: for every execution state whose last message is a
tool result, the human node suspends if and only if that result is tagged
as an escalation request (a structured marker whose need-human flag is
truthy and which carries a query field); when it suspends it stores a
PendingInterrupt whose payload is the one-field structured record carrying
the query text of the marker under the key "query", and it halts further
node execution for this call without reaching the finish marker: the
suspended run returns with the history unchanged and the pending interrupt
set.  The first conjunct is the only-if direction over every tool-result
content (a suspension implies an object content with truthy flag and query
field, and pins the payload shape); the second is the if direction together
with the halt property. -/
theorem C1_theorem (llm : List Message → AIReply) (fuel : Nat)
    (msgs : List Message) (content : Json)
    (hlast : msgs.getLast? = some (Message.tool content)) :
    (∀ (r : NodeResult) (payload : Json),
        human_node none msgs = some r → r.interrupt = some payload →
        ∃ fields q, content = Json.obj fields
          ∧ ((alookup fields "need_human").getD JVal.null).truthy = true
          ∧ alookup fields "query" = some q
          ∧ payload = Json.obj [("query", q)])
    ∧ (∀ (fields : List (String × JVal)) (q : JVal), content = Json.obj fields →
        ((alookup fields "need_human").getD JVal.null).truthy = true →
        alookup fields "query" = some q →
        human_node none msgs = some ⟨[], some (Json.obj [("query", q)])⟩
        ∧ runFrom llm (fuel + 1) .human none msgs
            = some ⟨msgs, some (Json.obj [("query", q)])⟩) := by
  constructor
  · intro r payload hr hint
    cases content with
    | prim v =>
      have hnone : human_node none msgs = none := by
        unfold human_node
        rw [hlast]
      rw [hnone] at hr
      exact absurd hr (by simp)
    | obj fields =>
      cases ht : ((alookup fields "need_human").getD JVal.null).truthy with
      | false =>
        have hfall : human_node none msgs = some ⟨[], none⟩ := by
          unfold human_node
          rw [hlast]
          simp [ht]
        rw [hfall] at hr
        injection hr with hr2
        rw [← hr2] at hint
        exact absurd hint (by simp)
      | true =>
        rcases hq : alookup fields "query" with _ | q
        · have hnone : human_node none msgs = none := by
            unfold human_node
            rw [hlast]
            simp [ht, hq]
          rw [hnone] at hr
          exact absurd hr (by simp)
        · have hh := human_node_suspends msgs fields q hlast ht hq
          rw [hh] at hr
          injection hr with hr2
          rw [← hr2] at hint
          refine ⟨fields, q, rfl, ht, hq, ?_⟩
          have hint2 : some (Json.obj [("query", q)]) = some payload := hint
          injection hint2 with h3
          exact h3.symm
  · intro fields q hcontent ht hq
    subst hcontent
    have hh := human_node_suspends msgs fields q hlast ht hq
    refine ⟨hh, ?_⟩
    rw [runFrom, hh]

/-- The C1 claim as frozen fails on the code in three concrete ways, one per
amended phrase.  First, at an escalation state the stored interrupt payload
is the one-field object built by `interrupt(\x7b"query": query\x7d)`
(src line 41), not the bare query text.  Second, a tool result whose
need-human flag is the truthy string "yes" — not the boolean true — still
suspends, because src line 36 tests Python truthiness of
`.get("need_human")`, refuting the only-if direction of the frozen
predicate "need-human flag is true".  Third, a tool result whose need-human
flag is true but which has no query field does not suspend: src line 37
raises KeyError, so a true flag alone is not sufficient and the escalation
marker must carry the query field. -/
theorem C1_counterexample :
    (human_node none [Message.tool (human_help "refund request order 42")]
        = some ⟨[], some (Json.obj [("query", JVal.str "refund request order 42")])⟩
      ∧ Json.obj [("query", JVal.str "refund request order 42")]
        ≠ Json.prim (JVal.str "refund request order 42"))
    ∧ (human_node none
          [Message.tool (Json.obj [("need_human", JVal.str "yes"), ("query", JVal.str "q")])]
        = some ⟨[], some (Json.obj [("query", JVal.str "q")])⟩
      ∧ alookup [("need_human", JVal.str "yes"), ("query", JVal.str "q")] "need_human"
          ≠ some (JVal.bool true))
    ∧ human_node none [Message.tool (Json.obj [("need_human", JVal.bool true)])]
        = none := by
  exact ⟨⟨by decide, by decide⟩, ⟨by decide, by decide⟩, by decide⟩

/-- Witness for C1: the refund escalation state, concretely, exercising both
the only-if direction (at the suspended result) and the if direction with
its halt property. -/
theorem C1_witness :
    (∃ fields q, Json.obj wFields = Json.obj fields
        ∧ ((alookup fields "need_human").getD JVal.null).truthy = true
        ∧ alookup fields "query" = some q
        ∧ Json.obj [("query", JVal.str "refund request order 42")] = Json.obj [("query", q)])
    ∧ human_node none [Message.tool (Json.obj wFields)]
        = some ⟨[], some (Json.obj [("query", JVal.str "refund request order 42")])⟩
    ∧ runFrom wLLM 1 .human none [Message.tool (Json.obj wFields)]
        = some ⟨[Message.tool (Json.obj wFields)],
            some (Json.obj [("query", JVal.str "refund request order 42")])⟩ :=
  ⟨(C1_theorem wLLM 0 [Message.tool (Json.obj wFields)] (Json.obj wFields) rfl).1
      ⟨[], some (Json.obj [("query", JVal.str "refund request order 42")])⟩
      (Json.obj [("query", JVal.str "refund request order 42")]) (by decide) rfl,
   ((C1_theorem wLLM 0 [Message.tool (Json.obj wFields)] (Json.obj wFields) rfl).2
      wFields (JVal.str "refund request order 42") rfl rfl rfl).1,
   ((C1_theorem wLLM 0 [Message.tool (Json.obj wFields)] (Json.obj wFields) rfl).2
      wFields (JVal.str "refund request order 42") rfl rfl rfl).2⟩

/-- Claim C2: resuming a suspended thread with an answer appends the
resolution message and then only messages that are not system-authored, so
exactly one new system-authored message is appended, and it carries the
literal answer text in the form "Admin resolved this: answer"; the pending
interrupt is cleared (when the continuation does not escalate again, the
resulting state has no pending interrupt at all). -/
theorem C2_theorem (llm : List Message → AIReply) (fuel : Nat) (store : Store)
    (tid ans : String) (st st2 : ExecutionState) (store2 : Store)
    (fields : List (String × JVal)) (q : JVal)
    (hlook : lookupThread store tid = some st)
    (hlast : st.messages.getLast? = some (Message.tool (Json.obj fields)))
    (hneed : ((alookup fields "need_human").getD JVal.null).truthy = true)
    (hq : alookup fields "query" = some q)
    (hres : resume llm fuel store tid ans = (store2, Except.ok st2)) :
    ∃ newMsgs, st2.messages = st.messages ++ newMsgs
      ∧ newMsgs.filter isSystemNote
          = [Message.human ("SYSTEM: Admin resolved this: " ++ ans) none]
      ∧ ((∀ hist, (llm hist).toolCalls = []) → st2.pending = none) := by
  obtain ⟨⟨rest, hr, hn⟩, hpend, _⟩ :=
    resume_ok_shape llm fuel store tid ans st st2 store2 fields q hlook hlast hneed hq hres
  have hrest : rest.filter isSystemNote = [] := by
    rw [List.filter_eq_nil_iff]
    intro a ha
    rw [hn a ha]
    simp
  refine ⟨Message.human ("SYSTEM: Admin resolved this: " ++ ans) none :: rest, hr, ?_, hpend⟩
  have hpos : isSystemNote (Message.human ("SYSTEM: Admin resolved this: " ++ ans) none)
      = true := rfl
  rw [List.filter_cons_of_pos hpos, hrest]

/-- Witness for C2: the refund scenario, concretely. -/
theorem C2_witness :
    ∃ newMsgs, wResolved.messages = wSuspended.messages ++ newMsgs
      ∧ newMsgs.filter isSystemNote
          = [Message.human ("SYSTEM: Admin resolved this: " ++ "Refund approved.") none]
      ∧ ((∀ hist, (wLLM hist).toolCalls = []) → wResolved.pending = none) :=
  C2_theorem wLLM 2 wStore "t1" "Refund approved." wSuspended wResolved
    [("t1", wResolved)] wFields (JVal.str "refund request order 42")
    rfl rfl rfl rfl rfl

/-- Claim C3: the workflow graph of get_app has exactly the nodes bot
(decide), tools and human; its edges are start→bot, bot→tools iff the
collaborator reply requests a tool call and bot→finish otherwise,
tools→human and human→bot unconditionally; the graph is a fixed definition
the engine only reads. -/
theorem C3_theorem (msgs : List Message) :
    graphNodes = [GNode.bot, GNode.tools, GNode.human]
    ∧ successor msgs .start = some .bot
    ∧ (successor msgs .bot = some .tools ↔ tools_condition msgs = true)
    ∧ (tools_condition msgs = false → successor msgs .bot = some .done)
    ∧ successor msgs .tools = some .human
    ∧ successor msgs .human = some .bot
    ∧ successor msgs .done = none
    ∧ (tools_condition msgs = true
        ↔ ∃ c tcs, msgs.getLast? = some (Message.ai c tcs) ∧ tcs ≠ []) := by
  refine ⟨rfl, rfl, ?_, ?_, rfl, rfl, rfl, ?_⟩
  · by_cases h : tools_condition msgs = true
    · simp [successor, h]
    · simp [successor, h]
  · intro h
    simp [successor, h]
  · unfold tools_condition
    rcases hl : msgs.getLast? with _ | m
    · simp
    · cases m with
      | human c n => simp
      | ai c tcs =>
        simp
        constructor
        · intro h
          exact ⟨c, tcs, ⟨rfl, rfl⟩, h⟩
        · rintro ⟨c1, tcs1, ⟨hc, htc⟩, h⟩
          rw [htc]
          exact h
      | tool j => simp
      | system c => simp

/-- Witness for C3: the empty history takes the bot→finish edge. -/
theorem C3_witness :
    successor [] GNode.bot = some GNode.done
    ∧ graphNodes = [GNode.bot, GNode.tools, GNode.human] :=
  ⟨(C3_theorem []).2.2.2.1 rfl, (C3_theorem []).1⟩

/-- Claim C4: resume on a stored thread with no PendingInterrupt fails with
NoPendingInterrupt and returns the store unchanged, so the stored state
before and after the failed call is the same. -/
theorem C4_theorem (llm : List Message → AIReply) (fuel : Nat) (store : Store)
    (tid ans : String) (st : ExecutionState)
    (hlook : lookupThread store tid = some st) (hp : st.pending = none) :
    resume llm fuel store tid ans
      = (store, Except.error EngineError.NoPendingInterrupt) := by
  simp [resume, hlook, hp]

/-- Witness for C4: the idle thread, concretely. -/
theorem C4_witness :
    resume wLLM 3 wIdleStore "t2" "x"
      = (wIdleStore, Except.error EngineError.NoPendingInterrupt) :=
  C4_theorem wLLM 3 wIdleStore "t2" "x" wIdle rfl rfl

/-- Claim C5: human_help is a pure function of its query returning exactly
the marker object with the need-human flag set true and the query text
preserved unchanged under the key "query". -/
theorem C5_theorem (query : String) :
    human_help query
      = Json.obj [("need_human", JVal.bool true), ("query", JVal.str query)]
    ∧ Json.getd (human_help query) "query" = JVal.str query
    ∧ Json.getd (human_help query) "need_human" = JVal.bool true := by
  refine ⟨rfl, ?_, rfl⟩
  rfl

/-- Claim C6: a non-escalation tool result makes the human node produce the
empty delta with no interrupt; the run then falls through to the successor
bot node; and an invoke under a collaborator that never escalates yields the
direct reply with no pending interrupt ever created. -/
theorem C6_theorem :
    (∀ (msgs : List Message) (fields : List (String × JVal)),
        msgs.getLast? = some (Message.tool (Json.obj fields)) →
        ((alookup fields "need_human").getD JVal.null).truthy = false →
        human_node none msgs = some ⟨[], none⟩)
    ∧ (∀ (llm : List Message → AIReply) (fuel : Nat) (msgs : List Message),
        human_node none msgs = some ⟨[], none⟩ →
        runFrom llm (fuel + 1) .human none msgs = runFrom llm fuel .bot none msgs)
    ∧ (∀ (llm : List Message → AIReply) (fuel : Nat) (acc : List Message) (txt : String),
        (∀ hist, (llm hist).toolCalls = []) →
        invokeState llm (fuel + 1) ⟨acc, none⟩ txt
          = some ⟨(acc ++ [Message.human txt none])
              ++ [Message.ai (llm (sysInstruction :: (acc ++ [Message.human txt none]))).content
                   (llm (sysInstruction :: (acc ++ [Message.human txt none]))).toolCalls],
              none⟩) := by
  refine ⟨?_, ?_, ?_⟩
  · intro msgs fields hlast hf
    unfold human_node
    rw [hlast]
    simp [hf]
  · intro llm fuel msgs h
    rw [runFrom, h]
    simp
  · intro llm fuel acc txt hllm
    unfold invokeState
    exact runFrom_bot_notools llm hllm fuel (acc ++ [Message.human txt none])

/-- Witness for C6: a concrete non-escalation tool result and a concrete
never-escalating invoke. -/
theorem C6_witness :
    human_node none [Message.tool (Json.obj [("need_human", JVal.bool false)])]
      = some ⟨[], none⟩
    ∧ invokeState wLLM 1 ⟨[], none⟩ "What are your hours?"
        = some ⟨([] ++ [Message.human "What are your hours?" none])
            ++ [Message.ai (wLLM (sysInstruction
                  :: ([] ++ [Message.human "What are your hours?" none]))).content
                 (wLLM (sysInstruction
                  :: ([] ++ [Message.human "What are your hours?" none]))).toolCalls],
            none⟩ :=
  ⟨C6_theorem.1 [Message.tool (Json.obj [("need_human", JVal.bool false)])]
      [("need_human", JVal.bool false)] rfl rfl,
   C6_theorem.2.2 wLLM 0 [] "What are your hours?" (fun _ => rfl)⟩

/-- Claim C7: a thread state holds at most one pending interrupt; the human
node never suspends again when re-executed with a continuation value, so the
interrupt present at suspension is consumed (removed, there is no resolved
flag to set); and a successful resume puts the resolution message into the
persisted history of the thread. -/
theorem C7_theorem :
    (∀ st : ExecutionState, pendingCount st ≤ 1)
    ∧ (∀ (ans : String) (msgs : List Message) (r : NodeResult),
        human_node (some ans) msgs = some r → r.interrupt = none)
    ∧ (∀ (llm : List Message → AIReply) (fuel : Nat) (store : Store)
        (tid ans : String) (st st2 : ExecutionState) (store2 : Store)
        (fields : List (String × JVal)) (q : JVal),
        lookupThread store tid = some st →
        st.messages.getLast? = some (Message.tool (Json.obj fields)) →
        ((alookup fields "need_human").getD JVal.null).truthy = true →
        alookup fields "query" = some q →
        resume llm fuel store tid ans = (store2, Except.ok st2) →
        Message.human ("SYSTEM: Admin resolved this: " ++ ans) none ∈ st2.messages
        ∧ lookupThread store2 tid = some st2) := by
  refine ⟨?_, ?_, ?_⟩
  · intro st
    rcases st with ⟨m, p⟩
    cases p <;> simp [pendingCount]
  · exact fun ans msgs r h => human_node_some_no_interrupt ans msgs r h
  · intro llm fuel store tid ans st st2 store2 fields q hlook hlast hneed hq hres
    obtain ⟨⟨rest, hr, _⟩, _, hstore⟩ :=
      resume_ok_shape llm fuel store tid ans st st2 store2 fields q hlook hlast hneed hq hres
    constructor
    · rw [hr]
      simp
    · rw [hstore]
      exact saveThread_lookup store tid st2

/-- Witness for C7: the refund scenario, concretely. -/
theorem C7_witness :
    Message.human ("SYSTEM: Admin resolved this: " ++ "Refund approved.") none
      ∈ wResolved.messages
    ∧ lookupThread [("t1", wResolved)] "t1" = some wResolved :=
  C7_theorem.2.2 wLLM 2 wStore "t1" "Refund approved." wSuspended wResolved
    [("t1", wResolved)] wFields (JVal.str "refund request order 42")
    rfl rfl rfl rfl rfl

/-- Claim C8: resume and getState on a never-seen thread id both yield
ThreadNotFound, an error value distinct from NoPendingInterrupt, so the
caller can tell the two conditions apart. -/
theorem C8_theorem (llm : List Message → AIReply) (fuel : Nat) (store : Store)
    (tid ans : String) (h : lookupThread store tid = none) :
    resume llm fuel store tid ans = (store, Except.error EngineError.ThreadNotFound)
    ∧ getState store tid = Except.error EngineError.ThreadNotFound
    ∧ EngineError.ThreadNotFound ≠ EngineError.NoPendingInterrupt := by
  refine ⟨?_, ?_, by decide⟩
  · simp [resume, h]
  · simp [getState, h]

/-- Witness for C8: the empty store, concretely. -/
theorem C8_witness :
    resume wLLM 3 ([] : Store) "t9" "x"
      = (([] : Store), Except.error EngineError.ThreadNotFound)
    ∧ getState ([] : Store) "t9" = Except.error EngineError.ThreadNotFound
    ∧ EngineError.ThreadNotFound ≠ EngineError.NoPendingInterrupt :=
  C8_theorem wLLM 3 ([] : Store) "t9" "x" rfl

/-- Claim C9: with a collaborator that never requests a tool call, any
sequence of invoke calls on one thread yields exactly the history built by
appending, in call order, each user input followed by the collaborator reply
to the history so far — nothing reordered, lost or duplicated — and no
pending interrupt. -/
theorem C9_theorem (llm : List Message → AIReply) (fuel : Nat)
    (hllm : ∀ hist, (llm hist).toolCalls = []) (inputs : List String) :
    invokeMany llm (fuel + 1) ⟨[], none⟩ inputs
      = some ⟨expectedFrom llm [] inputs, none⟩ :=
  invokeMany_notools llm hllm fuel inputs []

/-- Witness for C9: two invoke calls under the constant collaborator. -/
theorem C9_witness :
    invokeMany wLLM 1 ⟨[], none⟩ ["a", "b"]
      = some ⟨[Message.human "a" none, Message.ai "ok" [],
               Message.human "b" none, Message.ai "ok" []], none⟩ :=
  C9_theorem wLLM 0 (fun _ => rfl) ["a", "b"]

/-- Claim C10: the resolution message is a HumanMessage (the human role, not
a dedicated system role) with no name attribute, its content prefixed with
the literal text "SYSTEM: "; and the run_chat display classifies a message
as an admin/system note exactly when it is a HumanMessage whose name
attribute is not "user". -/
theorem C10_theorem (ans : String) (msgs : List Message)
    (fields : List (String × JVal)) (q : JVal)
    (hlast : msgs.getLast? = some (Message.tool (Json.obj fields)))
    (hneed : ((alookup fields "need_human").getD JVal.null).truthy = true)
    (hq : alookup fields "query" = some q) :
    human_node (some ans) msgs
      = some ⟨[Message.human ("SYSTEM: Admin resolved this: " ++ ans) none], none⟩
    ∧ (∃ rest, "SYSTEM: Admin resolved this: " ++ ans = "SYSTEM: " ++ rest)
    ∧ displayClassOf (Message.human ("SYSTEM: Admin resolved this: " ++ ans) none)
        = DisplayClass.systemNote
    ∧ (∀ m, displayClassOf m = DisplayClass.systemNote
        ↔ ∃ c nm, m = Message.human c nm ∧ nm ≠ some "user") := by
  refine ⟨human_node_resume_eq ans msgs fields q hlast hneed hq, ?_, rfl, ?_⟩
  · refine ⟨"Admin resolved this: " ++ ans, ?_⟩
    rw [← String.append_assoc]
    rfl
  · intro m
    cases m with
    | human c nm =>
      by_cases hnm : nm = some "user"
      · simp [displayClassOf, hnm]
      · simp only [displayClassOf]
        rw [if_pos hnm]
        constructor
        · intro hc2
          exact ⟨c, nm, rfl, hnm⟩
        · intro hc2
          rfl
    | ai c tcs =>
      by_cases hc : c.isEmpty = true <;> simp [displayClassOf, hc]
    | tool j => simp [displayClassOf]
    | system c => simp [displayClassOf]

/-- Witness for C10: the refund resolution message, concretely. -/
theorem C10_witness :
    human_node (some "Refund approved.") wSuspended.messages
      = some ⟨[Message.human ("SYSTEM: Admin resolved this: " ++ "Refund approved.") none],
          none⟩
    ∧ (∃ rest, "SYSTEM: Admin resolved this: " ++ "Refund approved." = "SYSTEM: " ++ rest)
    ∧ displayClassOf
        (Message.human ("SYSTEM: Admin resolved this: " ++ "Refund approved.") none)
        = DisplayClass.systemNote
    ∧ (∀ m, displayClassOf m = DisplayClass.systemNote
        ↔ ∃ c nm, m = Message.human c nm ∧ nm ≠ some "user") :=
  C10_theorem "Refund approved." wSuspended.messages wFields
    (JVal.str "refund request order 42") rfl rfl rfl

end HLM
